import Mathlib

/-!
Shallow embedding of primesieve's wheel-factorization engine
(`src/soe/WheelFactorization.h`).

Machine integers are modelled as `Nat` with explicit `% 2^w` wherever the
C++ code can overflow or truncate:
* `uint64_t` values carry `% 2^64`;
* `uint_t` (the repository's unsigned-int typedef, 32-bit — the spec's
  record fields are 32-bit) carries `% 2^32`;
* unsigned subtraction `a - b` on `uint64_t` is `(a + 2^64 - b) % 2^64`
  for `a, b < 2^64`.

The wheel constant tables (`wheel30Init`, `wheel210Init`, `wheel30`,
`wheel210`) live in `WheelFactorization.cpp`, which is not part of this
repository slice; engine functions are therefore parametrized by the
tables, exactly as the C++ template `WheelFactorization<MODULO, SIZE,
INIT, WHEEL>` is, and the concrete `WheelInit` tables used by witnesses
are modelled from the spec's description (see `initNextMultipleFactor`).
-/

namespace soe

/-- `struct WheelInit { uint8_t nextMultipleFactor; uint8_t wheelIndex; }`. -/
structure WheelInit where
  nextMultipleFactor : Nat
  wheelIndex : Nat
deriving Repr, DecidableEq

/-- `struct WheelElement`: `unsetBit`, `nextMultipleFactor`, `correct` are
`uint8_t`; `next` is `int8_t` (modelled as `Int`, it can be negative). -/
structure WheelElement where
  unsetBit : Nat
  nextMultipleFactor : Nat
  correct : Nat
  next : Int
deriving Repr, DecidableEq

/-- The C++ `uint64_t` modulus. -/
def U64 : Nat := 2 ^ 64

/-- The C++ `uint_t` (unsigned int, 32-bit) modulus. -/
def U32 : Nat := 2 ^ 32

/-- `WheelPrime`: `indexes_` and `sievingPrime_` are `uint32_t`. -/
structure WheelPrime where
  indexes : Nat
  sievingPrime : Nat
deriving Repr, DecidableEq

namespace WheelPrime

/-- `WheelPrime::getMaxSieveSize() = 1u << 23`. -/
def getMaxSieveSize : Nat := 1 <<< 23

/-- The packed word produced by
`set(multipleIndex, wheelIndex): indexes_ = (uint32_t)(multipleIndex | (wheelIndex << 23))`. -/
def packIndexes (multipleIndex wheelIndex : Nat) : Nat :=
  (multipleIndex ||| (wheelIndex <<< 23)) % U32

/-- `WheelPrime::set(uint_t multipleIndex, uint_t wheelIndex)` acting on the record. -/
def set (p : WheelPrime) (multipleIndex wheelIndex : Nat) : WheelPrime :=
  { p with indexes := packIndexes multipleIndex wheelIndex }

/-- `WheelPrime::set(uint_t sievingPrime, uint_t multipleIndex, uint_t wheelIndex)`:
calls the two-argument `set` and stores `sievingPrime_ = (uint32_t)sievingPrime`. -/
def set3 (p : WheelPrime) (sievingPrime multipleIndex wheelIndex : Nat) : WheelPrime :=
  { p.set multipleIndex wheelIndex with sievingPrime := sievingPrime % U32 }

/-- `WheelPrime::setMultipleIndex: indexes_ = (uint32_t)(indexes_ | multipleIndex)`. -/
def setMultipleIndex (p : WheelPrime) (multipleIndex : Nat) : WheelPrime :=
  { p with indexes := (p.indexes ||| multipleIndex) % U32 }

/-- `WheelPrime::setWheelIndex: indexes_ = (uint32_t)(wheelIndex << 23)`. -/
def setWheelIndex (p : WheelPrime) (wheelIndex : Nat) : WheelPrime :=
  { p with indexes := (wheelIndex <<< 23) % U32 }

/-- `WheelPrime::getSievingPrime() = sievingPrime_`. -/
def getSievingPrime (p : WheelPrime) : Nat := p.sievingPrime

/-- `WheelPrime::getMultipleIndex() = indexes_ & ((1 << 23) - 1)`. -/
def getMultipleIndex (p : WheelPrime) : Nat := p.indexes &&& ((1 <<< 23) - 1)

/-- `WheelPrime::getWheelIndex() = indexes_ >> 23`. -/
def getWheelIndex (p : WheelPrime) : Nat := p.indexes >>> 23

end WheelPrime

/-- A `Bucket` holds `config::BUCKETSIZE` wheel primes and a write cursor
`current_`; the capacity is the tunable external constant `config::BUCKETSIZE`,
so the model takes it as the parameter `cap`.  The cursor is modelled as the
index `current_ - wheelPrimes_`, and the array as a function from indices. -/
structure Bucket (cap : Nat) where
  current : Nat
  wheelPrimes : Nat → WheelPrime

namespace Bucket

/-- `Bucket::store(sievingPrime, multipleIndex, wheelIndex)`:
`wPrime = current_; current_++; wPrime->set(...); return wPrime != last();`
where `last() = &wheelPrimes_[cap - 1]`.  For an in-bounds cursor the
pointer comparison `wPrime != last()` is the index comparison
`current ≠ cap - 1`. -/
def store (cap : Nat) (b : Bucket cap) (sievingPrime multipleIndex wheelIndex : Nat) :
    Bucket cap × Bool :=
  (⟨b.current + 1,
    fun i => if i = b.current
      then (b.wheelPrimes b.current).set3 sievingPrime multipleIndex wheelIndex
      else b.wheelPrimes i⟩,
   decide (b.current ≠ cap - 1))

end Bucket

/-- `WheelFactorization::getMaxFactor() = WHEEL[0].nextMultipleFactor`. -/
def getMaxFactor (WHEEL : Nat → WheelElement) : Nat :=
  (WHEEL 0).nextMultipleFactor

/-- `WheelFactorization::getMaxStop()`:
`uint64_t maxPrime = UINT32_MAX; return UINT64_MAX - maxPrime * getMaxFactor();`
(64-bit product and difference; `UINT64_MAX ≥ product % 2^64`, so the
unsigned difference is the truncated `Nat` difference). -/
def getMaxStop (WHEEL : Nat → WheelElement) : Nat :=
  U64 - 1 - ((U32 - 1) * getMaxFactor WHEEL) % U64

/-- The `WheelFactorization(uint64_t stop, uint_t sieveSize)` constructor:
throws `primesieve_error` when `sieveSize > WheelPrime::getMaxSieveSize()`
or `stop > getMaxStop()`; otherwise the engine holds `stop_ = stop`. -/
def construct (WHEEL : Nat → WheelElement) (stop sieveSize : Nat) : Except String Nat :=
  if sieveSize > WheelPrime.getMaxSieveSize then
    Except.error "WheelFactorization: sieveSize must be <= getMaxSieveSize"
  else if stop > getMaxStop WHEEL then
    Except.error "WheelFactorization: stop must be <= getMaxStop"
  else
    Except.ok stop

/-- The static table `wheelOffsets_[30]` (a template member shared by both
wheel instantiations, parametrized by `SIZE`). -/
def wheelOffsets (SIZE : Nat) (i : Nat) : Nat :=
  [0xFF, 7 * SIZE, 0xFF, 0xFF, 0xFF, 0xFF,
   0xFF, 0 * SIZE, 0xFF, 0xFF, 0xFF, 1 * SIZE,
   0xFF, 2 * SIZE, 0xFF, 0xFF, 0xFF, 3 * SIZE,
   0xFF, 4 * SIZE, 0xFF, 0xFF, 0xFF, 5 * SIZE,
   0xFF, 0xFF,     0xFF, 0xFF, 0xFF, 6 * SIZE].getD i 0

/-- `WheelFactorization::add(uint_t prime, uint64_t segmentLow)`.
Returns the triple handed to the pure-virtual storage sink
`store(prime, multipleIndex, wheelIndex)`, or `none` when the prime is
retired without a record.  All `uint64_t` steps carry `% 2^64`; the casts
to `uint_t` carry `% 2^32`.  `isquare<uint64_t>(prime)` (from `imath.h`,
not in this slice) is squaring in `uint64_t`, per the spec's `prime²`. -/
def add (MODULO : Nat) (INIT : Nat → WheelInit) (SIZE : Nat)
    (stop : Nat) (prime segmentLow : Nat) : Option (Nat × Nat × Nat) :=
  let segmentLow' := (segmentLow + 6) % U64
  let quotient := (segmentLow' / prime + 1) % U64
  let multiple := (prime * quotient) % U64
  if multiple > stop then none
  else
    let square := (prime * prime) % U64
    let multiple' := if multiple < square then square else multiple
    let quotient' := if multiple < square then prime else quotient
    let multiple'' :=
      (multiple' + prime * (INIT (quotient' % MODULO)).nextMultipleFactor) % U64
    if multiple'' > stop then none
    else
      let multipleIndex := (((multiple'' + U64 - segmentLow') % U64) / 30) % U32
      let wheelIndex :=
        (wheelOffsets SIZE (prime % 30) + (INIT (quotient' % MODULO)).wheelIndex) % U32
      some (prime, multipleIndex, wheelIndex)

/-- `WheelFactorization::unsetBit(uint8_t* sieve, uint_t sievingPrime,
uint_t* multipleIndex, uint_t* wheelIndex)`.  The sieve array is a function
from byte indices to byte values.  `sievingPrime` is passed by value in the
C++ code, so it cannot change; it is returned unchanged to state that frame
fact.  The two `uint_t` increments of `*multipleIndex` carry `% 2^32`; the
`int8_t` increment of `*wheelIndex` is the wrapping unsigned addition
`(wheelIndex + next) mod 2^32` on `Int`. -/
def unsetBit (WHEEL : Nat → WheelElement) (sieve : Nat → Nat)
    (sievingPrime multipleIndex wheelIndex : Nat) :
    (Nat → Nat) × Nat × Nat × Nat :=
  let e := WHEEL wheelIndex
  let sieve' := fun i => if i = multipleIndex then sieve multipleIndex &&& e.unsetBit else sieve i
  let multipleIndex' := (multipleIndex + (e.nextMultipleFactor * sievingPrime) % U32) % U32
  let multipleIndex'' := (multipleIndex' + e.correct) % U32
  let wheelIndex' := (((wheelIndex : Int) + e.next) % (U32 : Int)).toNat
  (sieve', sievingPrime, multipleIndex'', wheelIndex')

/-- The quotient `segmentLow / prime + 1` computed by `add` after
`segmentLow += 6`, in exact integer arithmetic. -/
def addQuotient0 (prime segmentLow : Nat) : Nat :=
  (segmentLow + 6) / prime + 1

/-- The first multiple `prime * quotient` computed by `add`, exactly. -/
def addMultiple0 (prime segmentLow : Nat) : Nat :=
  prime * addQuotient0 prime segmentLow

/-- The quotient after `add`'s prime-square adjustment, exactly. -/
def addQuotient1 (prime segmentLow : Nat) : Nat :=
  if addMultiple0 prime segmentLow < prime * prime then prime
  else addQuotient0 prime segmentLow

/-- The multiple after `add`'s prime-square adjustment, exactly. -/
def addMultiple1 (prime segmentLow : Nat) : Nat :=
  if addMultiple0 prime segmentLow < prime * prime then prime * prime
  else addMultiple0 prime segmentLow

/-- The wheel-adjusted multiple
`multiple + prime * INIT[quotient % MODULO].nextMultipleFactor`, exactly. -/
def addMultiple2 (MODULO : Nat) (INIT : Nat → WheelInit) (prime segmentLow : Nat) : Nat :=
  addMultiple1 prime segmentLow +
    prime * (INIT (addQuotient1 prime segmentLow % MODULO)).nextMultipleFactor

/-- `add` re-expressed in exact (unbounded) integer arithmetic: the same
algorithm with no `% 2^64` reduction and true subtraction.  The two casts
to `uint_t` (32-bit) are kept: they are not 64-bit arithmetic.  Comparing
`add` with `addExact` states that the 64-bit arithmetic of `add` is exact. -/
def addExact (MODULO : Nat) (INIT : Nat → WheelInit) (SIZE : Nat)
    (stop : Nat) (prime segmentLow : Nat) : Option (Nat × Nat × Nat) :=
  if addMultiple0 prime segmentLow > stop then none
  else if addMultiple2 MODULO INIT prime segmentLow > stop then none
  else
    some (prime,
      ((addMultiple2 MODULO INIT prime segmentLow - (segmentLow + 6)) / 30) % U32,
      (wheelOffsets SIZE (prime % 30) +
        (INIT (addQuotient1 prime segmentLow % MODULO)).wheelIndex) % U32)

/-- The primes whose multiples the 3rd wheel skips:
"3rd wheel, skips multiples of 2, 3 and 5" (`Modulo30Wheel_t`). -/
def wheel30Primes : List Nat := [2, 3, 5]

/-- The primes whose multiples the 4th wheel skips:
"4th wheel, skips multiples of 2, 3, 5 and 7" (`Modulo210Wheel_t`). -/
def wheel210Primes : List Nat := [2, 3, 5, 7]

/-- Modelled from the spec: the `WheelInit` tables (`wheel30Init`,
`wheel210Init`) are defined in `WheelFactorization.cpp`, which is missing
from this repository slice.  Per the spec, `WheelInit[r].nextMultipleFactor`
is the smallest non-negative `k` such that `quotient + k` is coprime to the
wheel's primes (i.e. to `MODULO`) for `quotient ≡ r (mod MODULO)`. -/
def initNextMultipleFactor (MODULO r : Nat) : Nat :=
  ((List.range (MODULO + 1)).filter (fun k => Nat.gcd (r + k) MODULO = 1)).headD 0

/-- The residues coprime to `MODULO`, in increasing order: the wheel's
spokes (8 for modulus 30, 48 for modulus 210). -/
def coprimeSpokes (MODULO : Nat) : List Nat :=
  (List.range MODULO).filter (fun r => Nat.gcd r MODULO = 1)

/-- Modelled from the spec: `WheelInit[r].wheelIndex` is the spoke the next
wheel-coprime multiple lands on. -/
def initWheelIndex (MODULO r : Nat) : Nat :=
  (coprimeSpokes MODULO).indexOf ((r + initNextMultipleFactor MODULO r) % MODULO)

/-- Modelled from the spec: the full `WheelInit` table entry for residue `r`. -/
def wheelInitSpec (MODULO : Nat) (r : Nat) : WheelInit :=
  ⟨initNextMultipleFactor MODULO r, initWheelIndex MODULO r⟩

/-- Modelled from the spec: `maxFactor = WheelElement[0].nextMultipleFactor`
is "the largest jump any transition can apply", i.e. the largest gap from a
residue coprime to `MODULO` to the next coprime residue.  The `WheelElement`
tables themselves are in the missing `WheelFactorization.cpp`.
`specMaxFactor 30 = 6` and `specMaxFactor 210 = 10`. -/
def specMaxFactor (MODULO : Nat) : Nat :=
  ((coprimeSpokes MODULO).map (fun c => 1 + initNextMultipleFactor MODULO (c + 1))).foldr max 0

/-- Modelled from the spec: `getMaxStop()` of the engine whose wheel modulus
is `MODULO`, i.e. `UINT64_MAX - UINT32_MAX * maxFactor`. -/
def getMaxStopSpec (MODULO : Nat) : Nat :=
  U64 - 1 - (U32 - 1) * specMaxFactor MODULO

section BitHelpers

/-- Disjoint bit ranges: `a ||| b * 2 ^ n = b * 2 ^ n + a` for `a < 2 ^ n`. -/
lemma or_mul_pow_eq_add (a b n : Nat) (ha : a < 2 ^ n) :
    a ||| b * 2 ^ n = b * 2 ^ n + a := by
  rw [Nat.or_comm, Nat.mul_comm b (2 ^ n)]
  exact (Nat.mul_add_lt_is_or ha b).symm

/-- Splitting an or with a low-bits operand into high and low parts. -/
lemma or_small_split (x m n : Nat) (hm : m < 2 ^ n) :
    x ||| m = 2 ^ n * (x / 2 ^ n) + (x % 2 ^ n ||| m) := by
  conv_lhs => rw [← Nat.div_add_mod x (2 ^ n)]
  rw [Nat.mul_add_lt_is_or (Nat.mod_lt x (Nat.two_pow_pos n)) (x / 2 ^ n),
    Nat.or_assoc,
    ← Nat.mul_add_lt_is_or (Nat.or_lt_two_pow (Nat.mod_lt x (Nat.two_pow_pos n)) hm) (x / 2 ^ n)]

/-- Oring in a value below `2 ^ n` does not change the bits from `n` up. -/
lemma or_small_div (x m n : Nat) (hm : m < 2 ^ n) :
    (x ||| m) / 2 ^ n = x / 2 ^ n := by
  rw [or_small_split x m n hm, Nat.mul_add_div (Nat.two_pow_pos n),
    Nat.div_eq_of_lt (Nat.or_lt_two_pow (Nat.mod_lt x (Nat.two_pow_pos n)) hm), Nat.add_zero]

/-- Oring in a value below `2 ^ n` ors it into the low `n` bits. -/
lemma or_small_mod (x m n : Nat) (hm : m < 2 ^ n) :
    (x ||| m) % 2 ^ n = x % 2 ^ n ||| m := by
  rw [or_small_split x m n hm, Nat.mul_add_mod,
    Nat.mod_eq_of_lt (Nat.or_lt_two_pow (Nat.mod_lt x (Nat.two_pow_pos n)) hm)]

end BitHelpers

namespace WheelPrime

/-- The mask accessor is reduction modulo `2 ^ 23`. -/
lemma getMultipleIndex_eq_mod (p : WheelPrime) :
    p.getMultipleIndex = p.indexes % 2 ^ 23 := by
  unfold getMultipleIndex
  rw [Nat.shiftLeft_eq, Nat.one_mul, Nat.and_pow_two_sub_one_eq_mod]

/-- The shift accessor is division by `2 ^ 23`. -/
lemma getWheelIndex_eq_div (p : WheelPrime) :
    p.getWheelIndex = p.indexes / 2 ^ 23 := by
  unfold getWheelIndex
  rw [Nat.shiftRight_eq_div_pow]

/-- In-range fields pack into `wheelIndex * 2 ^ 23 + multipleIndex`, with no
truncation by the `uint32_t` cast. -/
lemma packIndexes_eq (multipleIndex wheelIndex : Nat)
    (hmi : multipleIndex < 2 ^ 23) (hwi : wheelIndex < 2 ^ 9) :
    packIndexes multipleIndex wheelIndex = wheelIndex * 2 ^ 23 + multipleIndex := by
  unfold packIndexes
  rw [Nat.shiftLeft_eq, or_mul_pow_eq_add _ _ _ hmi]
  apply Nat.mod_eq_of_lt
  have h1 : (wheelIndex + 1) * 2 ^ 23 ≤ 2 ^ 9 * 2 ^ 23 := Nat.mul_le_mul_right _ hwi
  have h2 : wheelIndex * 2 ^ 23 + multipleIndex < (wheelIndex + 1) * 2 ^ 23 := by
    rw [Nat.succ_mul]
    exact Nat.add_lt_add_left hmi _
  calc wheelIndex * 2 ^ 23 + multipleIndex < 2 ^ 9 * 2 ^ 23 := Nat.lt_of_lt_of_le h2 h1
    _ ≤ U32 := by norm_num [U32]

end WheelPrime

/-- C5: for all `multipleIndex < 2^23` and `wheelIndex < 2^9`, encoding them
into the packed 32-bit word (`WheelPrime::set`) and then decoding via
`getMultipleIndex()` and `getWheelIndex()` returns exactly the original pair. -/
theorem set_get_roundtrip (p : WheelPrime) (multipleIndex wheelIndex : Nat)
    (hmi : multipleIndex < 2 ^ 23) (hwi : wheelIndex < 2 ^ 9) :
    (p.set multipleIndex wheelIndex).getMultipleIndex = multipleIndex ∧
    (p.set multipleIndex wheelIndex).getWheelIndex = wheelIndex := by
  have hpack := WheelPrime.packIndexes_eq multipleIndex wheelIndex hmi hwi
  constructor
  · rw [WheelPrime.getMultipleIndex_eq_mod]
    show WheelPrime.packIndexes multipleIndex wheelIndex % 2 ^ 23 = multipleIndex
    rw [hpack, Nat.add_comm, Nat.add_mul_mod_self_right, Nat.mod_eq_of_lt hmi]
  · rw [WheelPrime.getWheelIndex_eq_div]
    show WheelPrime.packIndexes multipleIndex wheelIndex / 2 ^ 23 = wheelIndex
    rw [hpack, Nat.mul_comm, Nat.mul_add_div (Nat.two_pow_pos 23),
      Nat.div_eq_of_lt hmi, Nat.add_zero]

/-- Witness for C5 at `multipleIndex = 5`, `wheelIndex = 3`. -/
theorem set_get_roundtrip_witness :
    (5 : Nat) < 2 ^ 23 ∧ (3 : Nat) < 2 ^ 9 ∧
    ((WheelPrime.mk 0 0).set 5 3).getMultipleIndex = 5 ∧
    ((WheelPrime.mk 0 0).set 5 3).getWheelIndex = 3 :=
  ⟨by norm_num, by norm_num,
   (set_get_roundtrip ⟨0, 0⟩ 5 3 (by norm_num) (by norm_num)).1,
   (set_get_roundtrip ⟨0, 0⟩ 5 3 (by norm_num) (by norm_num)).2⟩

/-- C10 counterexample: `setMultipleIndex(1)` on a record whose multipleIndex
field is already `1` (nonzero) still makes `getMultipleIndex()` return `1 = m`,
so "`getMultipleIndex()` returns `m` only when the multipleIndex field was 0
beforehand" fails as stated. -/
theorem setMultipleIndex_nonzero_cex :
    (WheelPrime.setMultipleIndex ⟨1, 0⟩ 1).getMultipleIndex = 1 ∧
    WheelPrime.getMultipleIndex ⟨1, 0⟩ ≠ 0 := by decide

/-- C10 (amended): `setWheelIndex(w)` sets the whole packed word to `w << 23`,
so afterwards `getWheelIndex()` returns `w` and `getMultipleIndex()` returns 0
— the previously stored multipleIndex is discarded; `setMultipleIndex(m)` only
ORs `m` into the word, leaving the wheelIndex unchanged and making
`getMultipleIndex()` return the old field ORed with `m`; in particular it
returns `m` whenever the old multipleIndex field was 0 (in general the result
is `m` exactly when the old field is a bit-submask of `m`). -/
theorem set_index_fields_spec (p : WheelPrime) (w m : Nat)
    (hw : w < 2 ^ 9) (hm : m < 2 ^ 23) (hp : p.indexes < 2 ^ 32) :
    (p.setWheelIndex w).indexes = w <<< 23 ∧
    (p.setWheelIndex w).getWheelIndex = w ∧
    (p.setWheelIndex w).getMultipleIndex = 0 ∧
    (p.setMultipleIndex m).getWheelIndex = p.getWheelIndex ∧
    (p.setMultipleIndex m).getMultipleIndex = p.getMultipleIndex ||| m ∧
    (p.getMultipleIndex = 0 → (p.setMultipleIndex m).getMultipleIndex = m) := by
  have hshift : w <<< 23 % U32 = w <<< 23 := by
    rw [Nat.shiftLeft_eq]
    apply Nat.mod_eq_of_lt
    calc w * 2 ^ 23 < 2 ^ 9 * 2 ^ 23 := (Nat.mul_lt_mul_right (Nat.two_pow_pos 23)).mpr hw
      _ ≤ U32 := by norm_num [U32]
  have hsetw : (p.setWheelIndex w).indexes = w * 2 ^ 23 := by
    show w <<< 23 % U32 = w * 2 ^ 23
    rw [hshift, Nat.shiftLeft_eq]
  have hor : (p.setMultipleIndex m).indexes = p.indexes ||| m := by
    show (p.indexes ||| m) % U32 = p.indexes ||| m
    exact Nat.mod_eq_of_lt (Nat.or_lt_two_pow hp (Nat.lt_of_lt_of_le hm (by norm_num)))
  have hmod : (p.setMultipleIndex m).getMultipleIndex = p.getMultipleIndex ||| m := by
    rw [WheelPrime.getMultipleIndex_eq_mod, WheelPrime.getMultipleIndex_eq_mod, hor,
      or_small_mod _ _ _ hm]
  refine ⟨by rw [hsetw, Nat.shiftLeft_eq], ?_, ?_, ?_, hmod, ?_⟩
  · rw [WheelPrime.getWheelIndex_eq_div, hsetw, Nat.mul_div_cancel _ (Nat.two_pow_pos 23)]
  · rw [WheelPrime.getMultipleIndex_eq_mod, hsetw, Nat.mul_mod_left]
  · rw [WheelPrime.getWheelIndex_eq_div, WheelPrime.getWheelIndex_eq_div, hor,
      or_small_div _ _ _ hm]
  · intro h0
    rw [hmod, h0, Nat.zero_or]

/-- Witness for C10's amended theorem at a record with a nonzero word. -/
theorem set_index_fields_spec_witness :
    ((WheelPrime.mk 8388609 0).setWheelIndex 3).indexes = 3 <<< 23 ∧
    ((WheelPrime.mk 8388609 0).setWheelIndex 3).getWheelIndex = 3 ∧
    ((WheelPrime.mk 8388609 0).setWheelIndex 3).getMultipleIndex = 0 ∧
    ((WheelPrime.mk 8388609 0).setMultipleIndex 5).getWheelIndex =
      WheelPrime.getWheelIndex ⟨8388609, 0⟩ ∧
    ((WheelPrime.mk 8388609 0).setMultipleIndex 5).getMultipleIndex =
      WheelPrime.getMultipleIndex ⟨8388609, 0⟩ ||| 5 ∧
    (WheelPrime.getMultipleIndex ⟨8388609, 0⟩ = 0 →
      ((WheelPrime.mk 8388609 0).setMultipleIndex 5).getMultipleIndex = 5) :=
  set_index_fields_spec ⟨8388609, 0⟩ 3 5 (by norm_num) (by norm_num) (by norm_num)

/-- C2: construction with `stop == getMaxStop()` and `sieveSize ≤ 2^23`
succeeds; construction with `stop == getMaxStop()+1`, or with
`sieveSize > 2^23`, raises a configuration error; and `getMaxStop()` equals
`UINT64_MAX - UINT32_MAX * maxFactor` with
`maxFactor = WHEEL[0].nextMultipleFactor`.  `maxFactor` is a `uint8_t`
field, hence `≤ 255`; both real wheels have `maxFactor ≥ 1`. -/
theorem construct_boundary (WHEEL : Nat → WheelElement) (s₁ s₂ s₃ stop₃ : Nat)
    (hf1 : 1 ≤ getMaxFactor WHEEL) (hf2 : getMaxFactor WHEEL ≤ 255)
    (hs₁ : s₁ ≤ 2 ^ 23) (hs₃ : s₃ > 2 ^ 23) :
    construct WHEEL (getMaxStop WHEEL) s₁ = Except.ok (getMaxStop WHEEL) ∧
    (∃ e, construct WHEEL (getMaxStop WHEEL + 1) s₂ = Except.error e) ∧
    (∃ e, construct WHEEL stop₃ s₃ = Except.error e) ∧
    getMaxStop WHEEL = U64 - 1 - (U32 - 1) * getMaxFactor WHEEL ∧
    getMaxStop WHEEL + 1 ≤ U64 - 1 := by
  have hsz : WheelPrime.getMaxSieveSize = 2 ^ 23 := by
    unfold WheelPrime.getMaxSieveSize
    rw [Nat.shiftLeft_eq, Nat.one_mul]
  have hmod : ((U32 - 1) * getMaxFactor WHEEL) % U64 = (U32 - 1) * getMaxFactor WHEEL := by
    apply Nat.mod_eq_of_lt
    calc (U32 - 1) * getMaxFactor WHEEL ≤ (U32 - 1) * 255 := Nat.mul_le_mul_left _ hf2
      _ < U64 := by norm_num [U32, U64]
  refine ⟨?_, ?_, ?_, ?_, ?_⟩
  · unfold construct
    rw [hsz, if_neg (by omega), if_neg (by omega)]
  · unfold construct
    by_cases h : s₂ > WheelPrime.getMaxSieveSize
    · exact ⟨_, by rw [if_pos h]⟩
    · exact ⟨_, by rw [if_neg h, if_pos (Nat.lt_succ_self _)]⟩
  · unfold construct
    rw [hsz]
    exact ⟨_, by rw [if_pos hs₃]⟩
  · unfold getMaxStop
    rw [hmod]
  · have hmul : (U32 - 1) * 1 ≤ (U32 - 1) * getMaxFactor WHEEL :=
      Nat.mul_le_mul_left _ hf1
    unfold getMaxStop
    rw [hmod]
    have hu : (4294967295 : Nat) ≤ (U32 - 1) * getMaxFactor WHEEL := by
      calc (4294967295 : Nat) = (U32 - 1) * 1 := by norm_num [U32]
        _ ≤ _ := hmul
    norm_num [U64]
    omega

/-- Witness for C2 with a wheel table whose first element has factor 6. -/
theorem construct_boundary_witness :
    construct (fun _ => ⟨0, 6, 0, 0⟩) (getMaxStop fun _ => ⟨0, 6, 0, 0⟩) 4096 =
      Except.ok (getMaxStop fun _ => ⟨0, 6, 0, 0⟩) ∧
    (∃ e, construct (fun _ => ⟨0, 6, 0, 0⟩)
      (getMaxStop (fun _ => ⟨0, 6, 0, 0⟩) + 1) 4096 = Except.error e) ∧
    (∃ e, construct (fun _ => ⟨0, 6, 0, 0⟩) 0 (2 ^ 23 + 1) = Except.error e) ∧
    getMaxStop (fun _ => ⟨0, 6, 0, 0⟩) =
      U64 - 1 - (U32 - 1) * getMaxFactor (fun _ => ⟨0, 6, 0, 0⟩) ∧
    getMaxStop (fun _ => ⟨0, 6, 0, 0⟩) + 1 ≤ U64 - 1 :=
  construct_boundary (fun _ => ⟨0, 6, 0, 0⟩) 4096 4096 (2 ^ 23 + 1) 0
    (by norm_num [getMaxFactor]) (by norm_num [getMaxFactor]) (by norm_num) (by norm_num)

/-- C4: for every bucket whose cursor has room, `store` writes the record at
the current cursor slot, advances the cursor by one, and returns `true` iff
the slot just written was not the last slot of the bucket; the last slot is
itself written on the call that returns `false`. -/
theorem store_spec (cap : Nat) (b : Bucket cap) (sp mi wi : Nat)
    (_hroom : b.current < cap) :
    (Bucket.store cap b sp mi wi).1.wheelPrimes b.current =
      (b.wheelPrimes b.current).set3 sp mi wi ∧
    (∀ i, i ≠ b.current →
      (Bucket.store cap b sp mi wi).1.wheelPrimes i = b.wheelPrimes i) ∧
    (Bucket.store cap b sp mi wi).1.current = b.current + 1 ∧
    ((Bucket.store cap b sp mi wi).2 = true ↔ b.current ≠ cap - 1) ∧
    ((Bucket.store cap b sp mi wi).2 = false →
      (Bucket.store cap b sp mi wi).1.wheelPrimes (cap - 1) =
        (b.wheelPrimes (cap - 1)).set3 sp mi wi) := by
  refine ⟨by simp [Bucket.store], ?_, rfl, decide_eq_true_iff, ?_⟩
  · intro i hi
    simp [Bucket.store, hi]
  · intro hfalse
    have hlast : b.current = cap - 1 := by
      by_contra h
      simp [Bucket.store, h] at hfalse
    rw [← hlast]
    simp [Bucket.store]

/-- Witness for C4: a bucket of capacity 2 with cursor at slot 0. -/
theorem store_spec_witness :
    (Bucket.store 2 ⟨0, fun _ => ⟨0, 0⟩⟩ 1 2 3).1.wheelPrimes 0 =
      WheelPrime.set3 ⟨0, 0⟩ 1 2 3 ∧
    (∀ i, i ≠ 0 →
      (Bucket.store 2 ⟨0, fun _ => ⟨0, 0⟩⟩ 1 2 3).1.wheelPrimes i = ⟨0, 0⟩) ∧
    (Bucket.store 2 ⟨0, fun _ => ⟨0, 0⟩⟩ 1 2 3).1.current = 0 + 1 ∧
    ((Bucket.store 2 ⟨0, fun _ => ⟨0, 0⟩⟩ 1 2 3).2 = true ↔ (0 : Nat) ≠ 2 - 1) ∧
    ((Bucket.store 2 ⟨0, fun _ => ⟨0, 0⟩⟩ 1 2 3).2 = false →
      (Bucket.store 2 ⟨0, fun _ => ⟨0, 0⟩⟩ 1 2 3).1.wheelPrimes (2 - 1) =
        WheelPrime.set3 ⟨0, 0⟩ 1 2 3) :=
  store_spec 2 ⟨0, fun _ => ⟨0, 0⟩⟩ 1 2 3 (by norm_num)

/-- C3: one call to `unsetBit` ANDs `sieve[multipleIndex]` with
`WHEEL[wheelIndex].unsetBit`, replaces `multipleIndex` by
`multipleIndex + WHEEL[wheelIndex].nextMultipleFactor * sievingPrime +
WHEEL[wheelIndex].correct`, replaces `wheelIndex` by
`wheelIndex + WHEEL[wheelIndex].next`, and leaves every other byte of the
sieve and the sieving prime unchanged (in-range inputs: the `uint_t`
increments do not wrap). -/
theorem unsetBit_spec (WHEEL : Nat → WheelElement) (sieve : Nat → Nat)
    (sp mi wi : Nat)
    (hmi : mi + (WHEEL wi).nextMultipleFactor * sp + (WHEEL wi).correct < U32)
    (hw0 : 0 ≤ (wi : Int) + (WHEEL wi).next)
    (hw1 : (wi : Int) + (WHEEL wi).next < (U32 : Int)) :
    (unsetBit WHEEL sieve sp mi wi).1 mi = sieve mi &&& (WHEEL wi).unsetBit ∧
    (∀ j, j ≠ mi → (unsetBit WHEEL sieve sp mi wi).1 j = sieve j) ∧
    (unsetBit WHEEL sieve sp mi wi).2.2.1 =
      mi + (WHEEL wi).nextMultipleFactor * sp + (WHEEL wi).correct ∧
    ((unsetBit WHEEL sieve sp mi wi).2.2.2 : Int) = (wi : Int) + (WHEEL wi).next ∧
    (unsetBit WHEEL sieve sp mi wi).2.1 = sp := by
  have h1 : ((WHEEL wi).nextMultipleFactor * sp) % U32 =
      (WHEEL wi).nextMultipleFactor * sp := Nat.mod_eq_of_lt (by omega)
  have h2 : (mi + (WHEEL wi).nextMultipleFactor * sp) % U32 =
      mi + (WHEEL wi).nextMultipleFactor * sp := Nat.mod_eq_of_lt (by omega)
  refine ⟨by simp [unsetBit], ?_, ?_, ?_, rfl⟩
  · intro j hj
    simp [unsetBit, hj]
  · show ((mi + ((WHEEL wi).nextMultipleFactor * sp) % U32) % U32 +
      (WHEEL wi).correct) % U32 = _
    rw [h1, h2]
    exact Nat.mod_eq_of_lt hmi
  · show ((((wi : Int) + (WHEEL wi).next) % (U32 : Int)).toNat : Int) = _
    rw [Int.emod_eq_of_lt hw0 hw1, Int.toNat_of_nonneg hw0]

/-- Witness for C3: a one-spoke table with a negative `next` step. -/
theorem unsetBit_spec_witness :
    (unsetBit (fun _ => ⟨0xFE, 4, 1, -1⟩) (fun _ => 0xFF) 3 2 1).1 2 =
      0xFF &&& (WheelElement.mk 0xFE 4 1 (-1)).unsetBit ∧
    (∀ j, j ≠ 2 →
      (unsetBit (fun _ => ⟨0xFE, 4, 1, -1⟩) (fun _ => 0xFF) 3 2 1).1 j = 0xFF) ∧
    (unsetBit (fun _ => ⟨0xFE, 4, 1, -1⟩) (fun _ => 0xFF) 3 2 1).2.2.1 =
      2 + (WheelElement.mk 0xFE 4 1 (-1)).nextMultipleFactor * 3 +
        (WheelElement.mk 0xFE 4 1 (-1)).correct ∧
    ((unsetBit (fun _ => ⟨0xFE, 4, 1, -1⟩) (fun _ => 0xFF) 3 2 1).2.2.2 : Int) =
      ((1 : Nat) : Int) + (WheelElement.mk 0xFE 4 1 (-1)).next ∧
    (unsetBit (fun _ => ⟨0xFE, 4, 1, -1⟩) (fun _ => 0xFF) 3 2 1).2.1 = 3 :=
  unsetBit_spec (fun _ => ⟨0xFE, 4, 1, -1⟩) (fun _ => 0xFF) 3 2 1
    (by norm_num [U32]) (by norm_num) (by norm_num [U32])

/-- C9 counterexample: prime 7 is in the modulus-210 wheel's excluded set,
yet `wheelOffsets_[7 % 30]` for that wheel (`SIZE = 48`) is the valid spoke
base `0 * SIZE = 0`, not the sentinel `0xFF`. -/
theorem wheelOffsets_excluded_cex :
    7 ∈ wheel210Primes ∧ wheelOffsets 48 (7 % 30) = 0 ∧ (0 : Nat) ≠ 0xFF := by
  decide

/-- C9 (amended): for every prime in the modulus-30 wheel's excluded set
`{2, 3, 5}` the `wheelOffsets_` entry at `prime mod 30` is the sentinel
`0xFF`, for either wheel's `SIZE`; the modulus-210 wheel's additional
excluded prime 7 instead maps to the valid spoke base `0 * SIZE`. -/
theorem wheelOffsets_excluded_sentinel (SIZE p : Nat) (hp : p ∈ wheel30Primes) :
    wheelOffsets SIZE (p % 30) = 0xFF := by
  fin_cases hp <;> rfl

/-- Witness for C9's amended theorem at `SIZE = 48`, `p = 5`. -/
theorem wheelOffsets_excluded_sentinel_witness :
    5 ∈ wheel30Primes ∧ wheelOffsets 48 (5 % 30) = 0xFF :=
  ⟨by decide, wheelOffsets_excluded_sentinel 48 5 (by decide)⟩

/-- `add` agrees with its exact-arithmetic restatement `addExact` whenever
the 64-bit intermediates fit in 64 bits. -/
lemma add_eq_addExact (MODULO : Nat) (INIT : Nat → WheelInit)
    (SIZE stop prime segmentLow : Nat)
    (hp : 0 < prime)
    (hL : segmentLow + 6 < U64)
    (hM0 : addMultiple0 prime segmentLow < U64)
    (hSQ : prime * prime < U64)
    (hM2 : addMultiple0 prime segmentLow ≤ stop →
      addMultiple2 MODULO INIT prime segmentLow < U64) :
    add MODULO INIT SIZE stop prime segmentLow =
      addExact MODULO INIT SIZE stop prime segmentLow := by
  simp only [addMultiple2, addMultiple1, addQuotient1, addMultiple0, addQuotient0]
    at hM0 hM2
  have hQ : (segmentLow + 6) / prime + 1 < U64 := by
    have h1 : (segmentLow + 6) / prime + 1 ≤ prime * ((segmentLow + 6) / prime + 1) :=
      Nat.le_mul_of_pos_left _ hp
    omega
  have hLM0 : segmentLow + 6 < prime * ((segmentLow + 6) / prime + 1) := by
    have h1 := Nat.div_add_mod (segmentLow + 6) prime
    have h2 := Nat.mod_lt (segmentLow + 6) hp
    rw [Nat.mul_add, Nat.mul_one]
    omega
  simp only [add, addExact, addMultiple2, addMultiple1, addQuotient1, addMultiple0,
    addQuotient0]
  rw [Nat.mod_eq_of_lt hL, Nat.mod_eq_of_lt hQ, Nat.mod_eq_of_lt hM0, Nat.mod_eq_of_lt hSQ]
  by_cases hc : prime * ((segmentLow + 6) / prime + 1) > stop
  · rw [if_pos hc, if_pos hc]
  · rw [if_neg hc, if_neg hc]
    have hM2' := hM2 (Nat.le_of_not_lt hc)
    set Q := (segmentLow + 6) / prime + 1 with hQdef
    set M1 := if prime * Q < prime * prime then prime * prime else prime * Q with hM1def
    set q1 := if prime * Q < prime * prime then prime else Q with hq1def
    set F := (INIT (q1 % MODULO)).nextMultipleFactor with hFdef
    have hM0M1 : prime * Q ≤ M1 := by rw [hM1def]; split <;> omega
    have hle : segmentLow + 6 ≤ M1 + prime * F := by omega
    have hsub : M1 + prime * F - (segmentLow + 6) < U64 := by omega
    rw [Nat.mod_eq_of_lt hM2', Nat.sub_add_comm hle, Nat.add_mod_right,
      Nat.mod_eq_of_lt hsub]

/-- C1 counterexample: for the modulus-30 engine with `stop = 1000`,
`add 7 0` hands `(7, 1, 1)` to the storage sink — the first argument is the
prime `7` itself, not `7 / 30 = 0`. -/
theorem add_first_arg_cex :
    add 30 (wheelInitSpec 30) 8 1000 7 0 = some (7, 1, 1) ∧ (7 : Nat) ≠ 7 / 30 := by
  decide

/-- C1 (amended): whenever `add` produces a record, the value handed to the
injected storage sink as the first argument is the prime itself (the
division by 30 happens downstream in the sink implementations when they
pack a `WheelPrime`), together with the computed `multipleIndex` and
`wheelIndex`. -/
theorem add_first_arg (MODULO : Nat) (INIT : Nat → WheelInit)
    (SIZE stop prime segmentLow : Nat) (r : Nat × Nat × Nat)
    (h : add MODULO INIT SIZE stop prime segmentLow = some r) :
    r.1 = prime := by
  simp only [add] at h
  repeat' split at h
  all_goals cases h
  all_goals rfl

/-- Witness for C1's amended theorem at the modulus-30 engine, prime 7. -/
theorem add_first_arg_witness : ((7 : Nat), (1 : Nat), (1 : Nat)).1 = 7 :=
  add_first_arg 30 (wheelInitSpec 30) 8 1000 7 0 (7, 1, 1) (by decide)

/-- C6: when `add` stores a record for `prime` and `segmentLow`, the stored
values are exactly those of the spec's recipe: with
`quotient = (segmentLow+6)/prime + 1` and `multiple = prime * quotient`,
if `multiple < prime²` then `multiple` is raised to `prime²` and `quotient`
reset to `prime` (`addQuotient1`/`addMultiple1`); `multiple` is then advanced
by `prime * WheelInit[quotient mod MODULO].nextMultipleFactor`
(`addMultiple2`); and the record holds
`multipleIndex = (multiple - segmentLow - 6) / 30` and
`wheelIndex = wheelOffsets[prime mod 30] + WheelInit[quotient mod MODULO].wheelIndex`.
The bound hypotheses state that the 64-bit steps and the two `uint_t` casts
do not truncate. -/
theorem add_stored_values (MODULO : Nat) (INIT : Nat → WheelInit)
    (SIZE stop prime segmentLow : Nat) (r : Nat × Nat × Nat)
    (hp : 0 < prime)
    (hL : segmentLow + 6 < U64)
    (hM0 : addMultiple0 prime segmentLow < U64)
    (hSQ : prime * prime < U64)
    (hM2 : addMultiple0 prime segmentLow ≤ stop →
      addMultiple2 MODULO INIT prime segmentLow < U64)
    (hmi : (addMultiple2 MODULO INIT prime segmentLow - segmentLow - 6) / 30 < U32)
    (hwi : wheelOffsets SIZE (prime % 30) +
      (INIT (addQuotient1 prime segmentLow % MODULO)).wheelIndex < U32)
    (h : add MODULO INIT SIZE stop prime segmentLow = some r) :
    r = (prime,
      (addMultiple2 MODULO INIT prime segmentLow - segmentLow - 6) / 30,
      wheelOffsets SIZE (prime % 30) +
        (INIT (addQuotient1 prime segmentLow % MODULO)).wheelIndex) := by
  rw [add_eq_addExact MODULO INIT SIZE stop prime segmentLow hp hL hM0 hSQ hM2] at h
  unfold addExact at h
  split at h
  · cases h
  · split at h
    · cases h
    · rw [Nat.sub_sub] at hmi
      rw [← Option.some_inj.mp h, Nat.sub_sub, Nat.mod_eq_of_lt hmi, Nat.mod_eq_of_lt hwi]

/-- Witness for C6: modulus-30 engine, `stop = 1000`, `prime = 7`,
`segmentLow = 0`; the record is `(7, 1, 1)`. -/
theorem add_stored_values_witness :
    ((7 : Nat), (1 : Nat), (1 : Nat)) = (7,
      (addMultiple2 30 (wheelInitSpec 30) 7 0 - 0 - 6) / 30,
      wheelOffsets 8 (7 % 30) +
        (wheelInitSpec 30 (addQuotient1 7 0 % 30)).wheelIndex) :=
  add_stored_values 30 (wheelInitSpec 30) 8 1000 7 0 (7, 1, 1)
    (by decide) (by decide) (by decide) (by decide) (by decide) (by decide) (by decide)
    (by decide)

/-- C7: `add` never raises an error — in the embedding it is a total
function into `Option`; it produces no record (retires the prime) exactly
when the first multiple greater than `segmentLow + 6` exceeds `stop`, or
when the wheel-adjusted multiple after the coprime correction exceeds
`stop`; otherwise it hands exactly one record to the storage sink. -/
theorem add_none_iff (MODULO : Nat) (INIT : Nat → WheelInit)
    (SIZE stop prime segmentLow : Nat)
    (hp : 0 < prime)
    (hL : segmentLow + 6 < U64)
    (hM0 : addMultiple0 prime segmentLow < U64)
    (hSQ : prime * prime < U64)
    (hM2 : addMultiple0 prime segmentLow ≤ stop →
      addMultiple2 MODULO INIT prime segmentLow < U64) :
    (add MODULO INIT SIZE stop prime segmentLow = none ↔
      stop < addMultiple0 prime segmentLow ∨
      stop < addMultiple2 MODULO INIT prime segmentLow) ∧
    (addMultiple0 prime segmentLow ≤ stop →
      addMultiple2 MODULO INIT prime segmentLow ≤ stop →
      ∃ w, add MODULO INIT SIZE stop prime segmentLow = some w) := by
  rw [add_eq_addExact MODULO INIT SIZE stop prime segmentLow hp hL hM0 hSQ hM2]
  unfold addExact
  constructor
  · split_ifs with h1 h2
    · exact iff_of_true rfl (Or.inl h1)
    · exact iff_of_true rfl (Or.inr h2)
    · exact iff_of_false (by simp) (by omega)
  · intro hA hB
    rw [if_neg (Nat.not_lt.mpr hA), if_neg (Nat.not_lt.mpr hB)]
    exact ⟨_, rfl⟩

/-- Witness for C7: modulus-30 engine, `stop = 1000`, `prime = 7`,
`segmentLow = 0`. -/
theorem add_none_iff_witness :
    (add 30 (wheelInitSpec 30) 8 1000 7 0 = none ↔
      1000 < addMultiple0 7 0 ∨
      1000 < addMultiple2 30 (wheelInitSpec 30) 7 0) ∧
    (addMultiple0 7 0 ≤ 1000 →
      addMultiple2 30 (wheelInitSpec 30) 7 0 ≤ 1000 →
      ∃ w, add 30 (wheelInitSpec 30) 8 1000 7 0 = some w) :=
  add_none_iff 30 (wheelInitSpec 30) 8 1000 7 0
    (by decide) (by decide) (by decide) (by decide) (by decide)

lemma initFactor30_le_five : ∀ r, r < 30 → initNextMultipleFactor 30 r ≤ 5 := by decide

set_option maxRecDepth 40000 in
lemma initFactor210_le_nine : ∀ r, r < 210 → initNextMultipleFactor 210 r ≤ 9 := by decide

lemma specMaxFactor_eq_six : specMaxFactor 30 = 6 := by decide

set_option maxRecDepth 40000 in
lemma specMaxFactor_eq_ten : specMaxFactor 210 = 10 := by decide

/-- The square-plus-jump 64-bit fit for the modulus-30 table: even for the
largest 32-bit primes, `prime² + prime·nextMultipleFactor` does not wrap
(at `prime = 2^32 - 1` the sum is exactly `2^64 - 1`). -/
lemma sq_add_fits_30 (p : Nat) (hp32 : p ≤ U32 - 1) :
    p * p + p * initNextMultipleFactor 30 (p % 30) < U64 := by
  have h32 : U32 = 4294967296 := by norm_num [U32]
  have h64 : U64 = 18446744073709551616 := by norm_num [U64]
  rcases Nat.lt_or_ge p 4294967294 with h | h
  · have hf : initNextMultipleFactor 30 (p % 30) ≤ 5 :=
      initFactor30_le_five _ (Nat.mod_lt _ (by norm_num))
    have h1 : p * initNextMultipleFactor 30 (p % 30) ≤ p * 5 :=
      Nat.mul_le_mul_left _ hf
    have h2 : p * p + p * 5 = p * (p + 5) := by ring
    have h3 : p * (p + 5) ≤ 4294967293 * (4294967293 + 5) :=
      Nat.mul_le_mul (by omega) (by omega)
    have h4 : (4294967293 : Nat) * (4294967293 + 5) < 18446744073709551616 := by norm_num
    omega
  · have hcase : p = 4294967294 ∨ p = 4294967295 := by omega
    rcases hcase with rfl | rfl <;> decide

set_option maxRecDepth 40000 in
/-- The square-plus-jump 64-bit fit for the modulus-210 table. -/
lemma sq_add_fits_210 (p : Nat) (hp32 : p ≤ U32 - 1) :
    p * p + p * initNextMultipleFactor 210 (p % 210) < U64 := by
  have h32 : U32 = 4294967296 := by norm_num [U32]
  have h64 : U64 = 18446744073709551616 := by norm_num [U64]
  rcases Nat.lt_or_ge p 4294967292 with h | h
  · have hf : initNextMultipleFactor 210 (p % 210) ≤ 9 :=
      initFactor210_le_nine _ (Nat.mod_lt _ (by norm_num))
    have h1 : p * initNextMultipleFactor 210 (p % 210) ≤ p * 9 :=
      Nat.mul_le_mul_left _ hf
    have h2 : p * p + p * 9 = p * (p + 9) := by ring
    have h3 : p * (p + 9) ≤ 4294967291 * (4294967291 + 9) :=
      Nat.mul_le_mul (by omega) (by omega)
    have h4 : (4294967291 : Nat) * (4294967291 + 9) < 18446744073709551616 := by norm_num
    omega
  · have hcase : p = 4294967292 ∨ p = 4294967293 ∨ p = 4294967294 ∨ p = 4294967295 := by
      omega
    rcases hcase with rfl | rfl | rfl | rfl <;> decide

/-- Overflow-freedom of `add` for an engine whose spec-modelled wheel table
satisfies the stated factor bounds. -/
lemma add_no_overflow_core (MODULO SIZE stop prime segmentLow : Nat)
    (hmod : 0 < MODULO)
    (hF6 : 6 ≤ specMaxFactor MODULO) (hF255 : specMaxFactor MODULO ≤ 255)
    (hfb : ∀ r, r < MODULO →
      initNextMultipleFactor MODULO r ≤ specMaxFactor MODULO - 1)
    (hsq : ∀ q, q ≤ U32 - 1 →
      q * q + q * initNextMultipleFactor MODULO (q % MODULO) < U64)
    (hstop : stop ≤ getMaxStopSpec MODULO)
    (hp : 2 ≤ prime) (hp32 : prime ≤ U32 - 1) (hsl : segmentLow ≤ stop) :
    add MODULO (wheelInitSpec MODULO) SIZE stop prime segmentLow =
      addExact MODULO (wheelInitSpec MODULO) SIZE stop prime segmentLow ∧
    segmentLow + 6 < U64 ∧
    addQuotient0 prime segmentLow < U64 ∧
    addMultiple0 prime segmentLow < U64 ∧
    prime * prime < U64 ∧
    segmentLow + 6 < addMultiple0 prime segmentLow ∧
    (addMultiple0 prime segmentLow ≤ stop →
      addMultiple2 MODULO (wheelInitSpec MODULO) prime segmentLow < U64) := by
  have h32 : U32 = 4294967296 := by norm_num [U32]
  have h64 : U64 = 18446744073709551616 := by norm_num [U64]
  have hX6 : (U32 - 1) * 6 ≤ (U32 - 1) * specMaxFactor MODULO :=
    Nat.mul_le_mul_left _ hF6
  have hX6' : (U32 - 1) * 6 = 25769803770 := by norm_num [U32]
  have hstop' : stop ≤ 18446744073709551615 - (U32 - 1) * specMaxFactor MODULO := by
    unfold getMaxStopSpec at hstop
    omega
  have hL : segmentLow + 6 < U64 := by omega
  have hQdivle : (segmentLow + 6) / prime ≤ segmentLow + 6 := Nat.div_le_self _ _
  have hQ : addQuotient0 prime segmentLow < U64 := by
    unfold addQuotient0
    omega
  have hmul_le : prime * ((segmentLow + 6) / prime) ≤ segmentLow + 6 := by
    rw [Nat.mul_comm]
    exact Nat.div_mul_le_self _ _
  have hM0le : addMultiple0 prime segmentLow ≤ segmentLow + 6 + prime := by
    unfold addMultiple0 addQuotient0
    rw [Nat.mul_add, Nat.mul_one]
    omega
  have hM0 : addMultiple0 prime segmentLow < U64 := by omega
  have hsqlt : prime * prime < U64 := by
    have h1 : prime * prime ≤ 4294967295 * 4294967295 :=
      Nat.mul_le_mul (by omega) (by omega)
    have h2 : (4294967295 : Nat) * 4294967295 < 18446744073709551616 := by norm_num
    omega
  have hLM0 : segmentLow + 6 < addMultiple0 prime segmentLow := by
    unfold addMultiple0 addQuotient0
    have h1 := Nat.div_add_mod (segmentLow + 6) prime
    have h2 := Nat.mod_lt (segmentLow + 6) (show 0 < prime by omega)
    rw [Nat.mul_add, Nat.mul_one]
    omega
  have hM2 : addMultiple0 prime segmentLow ≤ stop →
      addMultiple2 MODULO (wheelInitSpec MODULO) prime segmentLow < U64 := by
    intro hA
    unfold addMultiple2 addMultiple1 addQuotient1
    simp only [wheelInitSpec]
    by_cases hraise : addMultiple0 prime segmentLow < prime * prime
    · rw [if_pos hraise, if_pos hraise]
      exact hsq prime hp32
    · rw [if_neg hraise, if_neg hraise]
      have hf : initNextMultipleFactor MODULO (addQuotient0 prime segmentLow % MODULO) ≤
          specMaxFactor MODULO - 1 := hfb _ (Nat.mod_lt _ hmod)
      have h1 : prime *
          initNextMultipleFactor MODULO (addQuotient0 prime segmentLow % MODULO) ≤
          4294967295 * (specMaxFactor MODULO - 1) := Nat.mul_le_mul (by omega) hf
      have h2 : 4294967295 * (specMaxFactor MODULO - 1) + 4294967295 =
          4294967295 * specMaxFactor MODULO := by
        have h3 : specMaxFactor MODULO - 1 + 1 = specMaxFactor MODULO := by omega
        conv_rhs => rw [← h3]
        rw [Nat.mul_add, Nat.mul_one]
      have hAA : (U32 - 1) * specMaxFactor MODULO =
          4294967295 * specMaxFactor MODULO := by
        rw [h32]
      omega
  exact ⟨add_eq_addExact MODULO (wheelInitSpec MODULO) SIZE stop prime segmentLow
      (by omega) hL hM0 hsqlt hM2, hL, hQ, hM0, hsqlt, hLM0, hM2⟩

/-- C8: for both engines (`MODULO = 30` with maxFactor 6, `MODULO = 210`
with maxFactor 10, tables modelled from the spec), an engine constructed
with `stop ≤ getMaxStop()`, any `prime ≤ 2^32 - 1` and any
`segmentLow ≤ stop` runs `add` with exact 64-bit arithmetic: `add` equals
its no-wraparound restatement `addExact`, every 64-bit intermediate —
`segmentLow + 6`, the quotient, `prime * quotient`, `prime²`, and in
particular the addition
`multiple + prime * WheelInit[quotient mod MODULO].nextMultipleFactor` on
any executed path — stays below `2^64`. -/
theorem add_no_overflow (MODULO SIZE stop prime segmentLow : Nat)
    (hM : MODULO = 30 ∨ MODULO = 210)
    (hstop : stop ≤ getMaxStopSpec MODULO)
    (hp : 2 ≤ prime) (hp32 : prime ≤ U32 - 1) (hsl : segmentLow ≤ stop) :
    add MODULO (wheelInitSpec MODULO) SIZE stop prime segmentLow =
      addExact MODULO (wheelInitSpec MODULO) SIZE stop prime segmentLow ∧
    segmentLow + 6 < U64 ∧
    addQuotient0 prime segmentLow < U64 ∧
    addMultiple0 prime segmentLow < U64 ∧
    prime * prime < U64 ∧
    segmentLow + 6 < addMultiple0 prime segmentLow ∧
    (addMultiple0 prime segmentLow ≤ stop →
      addMultiple2 MODULO (wheelInitSpec MODULO) prime segmentLow < U64) := by
  rcases hM with rfl | rfl
  · exact add_no_overflow_core 30 SIZE stop prime segmentLow (by norm_num)
      (by rw [specMaxFactor_eq_six])
      (by rw [specMaxFactor_eq_six]; norm_num)
      (fun r hr => by
        have := initFactor30_le_five r hr
        rw [specMaxFactor_eq_six]
        omega)
      sq_add_fits_30 hstop hp hp32 hsl
  · exact add_no_overflow_core 210 SIZE stop prime segmentLow (by norm_num)
      (by rw [specMaxFactor_eq_ten]; norm_num)
      (by rw [specMaxFactor_eq_ten]; norm_num)
      (fun r hr => by
        have := initFactor210_le_nine r hr
        rw [specMaxFactor_eq_ten]
        omega)
      sq_add_fits_210 hstop hp hp32 hsl

/-- Witness for C8: modulus-30 engine, `stop = 1000`, `prime = 7`,
`segmentLow = 0`. -/
theorem add_no_overflow_witness :
    (add 30 (wheelInitSpec 30) 8 1000 7 0 =
      addExact 30 (wheelInitSpec 30) 8 1000 7 0) ∧
    (0 : Nat) + 6 < U64 ∧
    addQuotient0 7 0 < U64 ∧
    addMultiple0 7 0 < U64 ∧
    (7 : Nat) * 7 < U64 ∧
    (0 : Nat) + 6 < addMultiple0 7 0 ∧
    (addMultiple0 7 0 ≤ 1000 →
      addMultiple2 30 (wheelInitSpec 30) 7 0 < U64) :=
  add_no_overflow 30 8 1000 7 0 (Or.inl rfl) (by decide) (by decide) (by decide)
    (by decide)

end soe
